import Mathlib

/-!
# Verification of the TarkovQuestTracker desktop companion's log-watching pipeline

Shallow embedding of the Rust sources under
`desktop-companion/src-tauri/src/` (`log_watcher.rs`, `lib.rs`,
`app_state.rs`, `tarkov_paths.rs`).

Modelling conventions:
* file contents are the character lists of valid UTF-8 strings (what
  `read_to_string` yields); byte positions are computed from per-character
  UTF-8 lengths, so the byte-indexed slice and its char-boundary panic are
  modelled exactly;
* a filesystem path is its list of components (`List String`);
* clock instants are abstract `Nat` values passed in explicitly;
* the outcome of each OS interaction (directory existence, watcher creation,
  file reads, change notifications) is an explicit input of the model, so the
  event-processing task becomes a deterministic step function on its state.
-/

namespace TarkovQuestTracker

/-! ## EventFilter — `log_watcher.rs` lines 59–61

The Rust code takes `event.paths.first()`, then requires
`path.extension() == Some("log")` and that the file name (the last path
component) contains the substring `"notifications"`. -/

/-- Substring test, as Rust's `str::contains`: does `hay` contain `needle`
as a contiguous run of characters? -/
def strContains (needle : List Char) : List Char → Bool
  | [] => needle.isEmpty
  | c :: t => needle.isPrefixOf (c :: t) || strContains needle t

/-- Helper for `extOfName`: walks the REVERSED file name, accumulating the
characters that follow the last dot of the original name.  Returns `none`
when there is no dot, or when the only dot is the leading character of the
name (Rust's `Path::extension` returns `None` for names like `".log"`). -/
def extAux : List Char → List Char → Option (List Char)
  | [], _ => none
  | c :: rest, acc =>
    if c = '.' then
      if rest.isEmpty then none else some acc
    else extAux rest (c :: acc)

/-- Rust `Path::extension` restricted to a file name: the portion after the
final `.`, or `none` when there is no dot or the name starts with its only
dot. -/
def extOfName (name : String) : Option String :=
  match extAux name.data.reverse [] with
  | none => none
  | some cs => some (String.mk cs)

/-- The event filter of `log_watcher.rs` lines 59–61: accept a path iff its
final component has extension `"log"` and contains `"notifications"`. -/
def event_filter_accept (path : List String) : Bool :=
  match path.getLast? with
  | none => false
  | some name =>
    match extOfName name with
    | none => false
    | some e => decide (e = "log") && strContains "notifications".data name.data

/-! ## IncrementalReader — `log_watcher.rs` lines 63–66

`std::fs::read_to_string` yields a `String`, guaranteed valid UTF-8, so a
file content is modelled as its list of characters.  The code computes
`let start = content.len().saturating_sub(10240)` over the BYTE length
(`saturating_sub` on unsigned integers is exactly `Nat` subtraction) and
then slices `&content[start..]`.  In Rust that byte-indexed slice PANICS
when `start` does not fall on a UTF-8 character boundary; `sliceFrom`
returns `none` on exactly that error path, and the panic propagates into
the task model below (the spawned task dies). -/

/-- The 10 KiB window bound hard-coded in `log_watcher.rs` line 65. -/
def WINDOW_SIZE : Nat := 10240

/-- Byte length of one character's UTF-8 encoding. -/
def utf8Len (c : Char) : Nat :=
  if c.val < 0x80 then 1
  else if c.val < 0x800 then 2
  else if c.val < 0x10000 then 3
  else 4

/-- Rust `String::len`: the total UTF-8 byte length of the content. -/
def utf8ByteLength (s : List Char) : Nat := (s.map utf8Len).sum

/-- Rust `&content[i..]`: `some` of the character suffix starting at byte
index `i` when `i` lies on a character boundary; `none` models the panic
raised when `i` falls inside a multibyte character (or past the end). -/
def sliceFrom (l : List Char) (i : Nat) : Option (List Char) :=
  if i = 0 then some l
  else
    match l with
    | [] => none
    | c :: rest => if utf8Len c ≤ i then sliceFrom rest (i - utf8Len c) else none

/-- The trailing window kept from a freshly read file:
`&content[content.len().saturating_sub(10240)..]`; `none` when that slice
panics on a split character. -/
def trailing_window (content : List Char) : Option (List Char) :=
  sliceFrom content (utf8ByteLength content - WINDOW_SIZE)

/-! ## tarkov_paths.rs — `validate_log_directory` (lines 84–109)

A filesystem node is either a plain file or a directory listing its entry
names; `none` models a path that does not exist. -/

/-- A filesystem node: a plain file, or a directory with its entry names. -/
inductive FsNode
  | file
  | dir (entries : List String)
deriving DecidableEq

/-- `validate_log_directory`: false when the path does not exist or is not a
directory; otherwise true iff some entry name starts with `"log_"` or ends
with `".log"` (`tarkov_paths.rs` lines 84–109). -/
def validate_log_directory (node : Option FsNode) : Bool :=
  match node with
  | none => false
  | some FsNode.file => false
  | some (FsNode.dir entries) =>
    entries.any fun name =>
      "log_".data.isPrefixOf name.data || ".log".data.isSuffixOf name.data

/-! ### Theorems for the filter, the reader and the directory validator -/

lemma strContains_iff (needle hay : List Char) :
    strContains needle hay = true ↔ needle <:+: hay := by
  induction hay with
  | nil =>
    simp [strContains, List.isEmpty_iff, List.infix_nil]
  | cons c t ih =>
    simp only [strContains, Bool.or_eq_true, List.isPrefixOf_iff_prefix, ih]
    constructor
    · rintro (h | h)
      · exact h.isInfix
      · exact h.trans (List.suffix_cons c t).isInfix
    · rintro ⟨s, u, h⟩
      match s with
      | [] => exact Or.inl ⟨u, by simpa using h⟩
      | _ :: s' =>
        right
        have h' : s' ++ needle ++ u = t := by
          simpa using congrArg List.tail h
        exact ⟨s', u, h'⟩

/-- C5: the event filter accepts a path iff the final component's extension
is exactly `"log"` and the file name contains the substring
`"notifications"`; in particular `notifications.txt` and `application.log`
are rejected while `notifications.log` is accepted. -/
theorem event_filter_accept_correct (path : List String) :
    (event_filter_accept path = true ↔
      ∃ name, path.getLast? = some name ∧ extOfName name = some "log" ∧
        strContains "notifications".data name.data = true)
    ∧ event_filter_accept ["notifications.txt"] = false
    ∧ event_filter_accept ["application.log"] = false
    ∧ event_filter_accept ["notifications.log"] = true := by
  refine ⟨?_, by decide, by decide, by decide⟩
  unfold event_filter_accept
  match h : path.getLast? with
  | none => simp
  | some name =>
    match he : extOfName name with
    | none => simp [he]
    | some e =>
      simp only [he, Bool.and_eq_true, decide_eq_true_iff, Option.some.injEq]
      constructor
      · rintro ⟨rfl, hc⟩
        exact ⟨name, rfl, he, hc⟩
      · rintro ⟨name', rfl, hext, hc⟩
        rw [he] at hext
        exact ⟨(Option.some.inj hext), hc⟩

lemma sliceFrom_zero (l : List Char) : sliceFrom l 0 = some l := by
  rw [sliceFrom.eq_def]
  simp

lemma sliceFrom_cons_pos (c : Char) (rest : List Char) (i : Nat)
    (h : i ≠ 0) :
    sliceFrom (c :: rest) i =
      if utf8Len c ≤ i then sliceFrom rest (i - utf8Len c) else none := by
  rw [sliceFrom.eq_def]
  simp [h]

lemma utf8ByteLength_cons (c : Char) (l : List Char) :
    utf8ByteLength (c :: l) = utf8Len c + utf8ByteLength l := by
  simp [utf8ByteLength]

lemma utf8ByteLength_replicate (n : Nat) (c : Char) :
    utf8ByteLength (List.replicate n c) = n * utf8Len c := by
  simp [utf8ByteLength, List.map_replicate, List.sum_replicate, smul_eq_mul]

lemma trailing_window_short (content : List Char)
    (h : utf8ByteLength content ≤ WINDOW_SIZE) :
    trailing_window content = some content := by
  rw [trailing_window, Nat.sub_eq_zero_of_le h, sliceFrom_zero]

/-- Slicing a run of one-byte characters never meets a boundary violation:
any start index within the run is a character boundary. -/
lemma sliceFrom_ascii (c : Char) (h : utf8Len c = 1) :
    ∀ n i : Nat, i ≤ n →
      sliceFrom (List.replicate n c) i = some (List.replicate (n - i) c) := by
  intro n
  induction n with
  | zero =>
    intro i hi
    rw [Nat.le_zero.mp hi, sliceFrom_zero]
  | succ m ih =>
    intro i hi
    rcases Nat.eq_zero_or_pos i with rfl | hpos
    · rw [sliceFrom_zero, Nat.sub_zero]
    · have hne : i ≠ 0 := Nat.pos_iff_ne_zero.mp hpos
      rw [List.replicate_succ, sliceFrom_cons_pos _ _ _ hne, h,
        if_pos (show 1 ≤ i by omega), ih (i - 1) (by omega),
        show m - (i - 1) = m + 1 - i by omega]

/-- The failing input of C4: a readable, valid-UTF-8 file of 10241 bytes —
a two-byte `é` followed by 10239 one-byte characters — whose window start,
byte 1, falls inside `é`, so `&content[start..]` panics. -/
lemma trailing_window_split_char :
    trailing_window ('é' :: List.replicate 10239 'a') = none := by
  have h1 : utf8Len 'é' = 2 := by decide
  have h2 : utf8Len 'a' = 1 := by decide
  have hl : utf8ByteLength ('é' :: List.replicate 10239 'a') = 10241 := by
    rw [utf8ByteLength_cons, utf8ByteLength_replicate, h1, h2]
  rw [trailing_window, hl,
    show 10241 - WINDOW_SIZE = 1 by norm_num [WINDOW_SIZE],
    sliceFrom_cons_pos _ _ _ (by norm_num), h1]
  norm_num

/-- C4 is false of the code: the byte-indexed slice
`&content[content.len().saturating_sub(10240)..]` panics on a readable
10241-byte UTF-8 file whose window start falls inside a multibyte
character, instead of returning the trailing window (first conjunct); the
claim's own concrete instances do hold on all-ASCII contents — a
20000-byte file yields its last 10240 bytes and a 500-byte file is
returned whole (remaining conjuncts). -/
theorem incremental_reader_panics_on_split_char :
    trailing_window ('é' :: List.replicate 10239 'a') = none
    ∧ trailing_window (List.replicate 20000 'a') =
        some (List.replicate 10240 'a')
    ∧ trailing_window (List.replicate 500 'a') =
        some (List.replicate 500 'a') := by
  have h2 : utf8Len 'a' = 1 := by decide
  refine ⟨trailing_window_split_char, ?_, ?_⟩
  · rw [trailing_window, utf8ByteLength_replicate, h2,
      show 20000 * 1 - WINDOW_SIZE = 9760 by norm_num [WINDOW_SIZE],
      sliceFrom_ascii 'a' h2 20000 9760 (by norm_num)]
  · exact trailing_window_short _
      (by rw [utf8ByteLength_replicate, h2]; norm_num [WINDOW_SIZE])

/-- C6: `validate_log_directory` returns true iff the path exists, is a
directory, and has an entry whose name starts with `"log_"` or ends with
`".log"`; a directory holding only `readme.txt` yields false and one
holding `eft.log` yields true. -/
theorem validate_log_directory_correct (node : Option FsNode) :
    (validate_log_directory node = true ↔
      ∃ entries, node = some (FsNode.dir entries) ∧
        ∃ name ∈ entries,
          ("log_".data.isPrefixOf name.data = true ∨
           ".log".data.isSuffixOf name.data = true))
    ∧ validate_log_directory (some (FsNode.dir ["readme.txt"])) = false
    ∧ validate_log_directory (some (FsNode.dir ["eft.log"])) = true := by
  refine ⟨?_, by decide, by decide⟩
  match node with
  | none => simp [validate_log_directory]
  | some FsNode.file => simp [validate_log_directory]
  | some (FsNode.dir entries) =>
    simp [validate_log_directory, List.any_eq_true]

/-! ## Lifecycle state — `app_state.rs` and the commands of `lib.rs`

`AppState` keeps the two fields the lifecycle commands read and write:
the watcher status and the watching flag (the mutexes protect them; the
commands themselves run one at a time, so the state machine below steps
atomically per command). -/

/-- `WatcherStatus` of `app_state.rs` lines 30–34. -/
inductive WatcherStatus
  | Stopped
  | Running
  | Error (msg : String)
deriving DecidableEq

/-- The lifecycle-relevant fields of `AppState` (`app_state.rs` lines 37–41). -/
structure AppState where
  watcher_status : WatcherStatus
  is_watching : Bool
deriving DecidableEq

/-- `AppState::new` (`app_state.rs` lines 44–50): status `Stopped`, not
watching. -/
def AppState.initial : AppState := ⟨WatcherStatus.Stopped, false⟩

/-- Environment of one attempt to start the OS watch pipeline: whether the
log directory exists, and the error message (if any) from creating the OS
watcher and from registering the directory watch. -/
structure WatchEnv where
  dir_exists : Bool
  create_err : Option String
  watch_err : Option String
deriving DecidableEq

/-- `log_watcher::start_log_watcher` (`log_watcher.rs` lines 18–41), up to
the point where the task is spawned: the three early-return error paths,
then success. -/
def lw_start (log_directory : String) (env : WatchEnv) : Except String Unit :=
  if !env.dir_exists then
    Except.error ("Log directory not found: " ++ log_directory)
  else
    match env.create_err with
    | some e => Except.error ("Failed to create file watcher: " ++ e)
    | none =>
      match env.watch_err with
      | some e => Except.error ("Failed to watch directory: " ++ e)
      | none => Except.ok ()

/-- `log_watcher::stop_log_watcher` (`log_watcher.rs` lines 103–107):
unconditionally `Ok(true)`; it cancels nothing. -/
def lw_stop : Except String Bool := Except.ok true

/-- The `start_log_watcher` command (`lib.rs` lines 44–59): rejects when
already watching; otherwise propagates any pipeline-start error unchanged;
on success sets the watching flag and the `Running` status. -/
def start_cmd (log_directory : String) (env : WatchEnv) (s : AppState) :
    Except String String × AppState :=
  if s.is_watching then
    (Except.error "Watcher is already running", s)
  else
    match lw_start log_directory env with
    | Except.error e => (Except.error e, s)
    | Except.ok _ =>
      (Except.ok ("Started watching: " ++ log_directory),
       { s with is_watching := true, watcher_status := WatcherStatus.Running })

/-- The `stop_log_watcher` command (`lib.rs` lines 62–73): `Ok(false)` when
not watching; otherwise clears the flag and sets `Stopped`. -/
def stop_cmd (s : AppState) : Except String Bool × AppState :=
  if !s.is_watching then
    (Except.ok false, s)
  else
    match lw_stop with
    | Except.error e => (Except.error e, s)
    | Except.ok _ =>
      (Except.ok true,
       { s with is_watching := false, watcher_status := WatcherStatus.Stopped })

/-- The mid-run watch-error branch (`log_watcher.rs` lines 75–78): it only
emits a `"log-error"` notification to the frontend; the shared `AppState`
is not touched. -/
def watch_error_handler (s : AppState) (msg : String) :
    AppState × List (String × String) :=
  (s, [("log-error", "Watch error: " ++ msg)])

/-- One externally triggered lifecycle event: a start command (with the OS
environment it meets), a stop command, or a mid-run watch error. -/
inductive LifecycleEvent
  | startE (dir : String) (env : WatchEnv)
  | stopE
  | watchErrorE (msg : String)

/-- State reached after one lifecycle event. -/
def lifecycle_step (s : AppState) : LifecycleEvent → AppState
  | LifecycleEvent.startE d env => (start_cmd d env s).2
  | LifecycleEvent.stopE => (stop_cmd s).2
  | LifecycleEvent.watchErrorE m => (watch_error_handler s m).1

/-- State reached after a sequence of lifecycle events. -/
def lifecycle_run (s : AppState) : List LifecycleEvent → AppState
  | [] => s
  | e :: rest => lifecycle_run (lifecycle_step s e) rest

/-- The spec's three-way agreement, restricted to the two fields the code
stores: status is `Running` exactly when the watching flag is set. -/
def status_watching_agree (s : AppState) : Prop :=
  s.watcher_status = WatcherStatus.Running ↔ s.is_watching = true

/-! ### Theorems for the lifecycle -/

lemma lifecycle_step_agree (s : AppState) (e : LifecycleEvent)
    (h : status_watching_agree s) : status_watching_agree (lifecycle_step s e) := by
  cases e with
  | startE d env =>
    rw [lifecycle_step, start_cmd]
    by_cases hw : s.is_watching
    · simpa [hw]
    · match lw_start d env with
      | Except.error e => simpa [hw]
      | Except.ok _ =>
        simp only [hw, if_neg, Bool.false_eq_true, if_false]
        exact ⟨fun _ => rfl, fun _ => rfl⟩
  | stopE =>
    rw [lifecycle_step, stop_cmd]
    by_cases hw : s.is_watching
    · simp only [hw, Bool.not_true, Bool.false_eq_true, if_false, lw_stop]
      exact ⟨fun h => by simp at h, fun h => by simp at h⟩
    · simpa [hw]
  | watchErrorE m => exact h

/-- C2 counterexample: start the watcher successfully, then hit a fatal
mid-run watch error.  The code leaves the status `Running` and the flag
set; it does not transition to `Error` and does not clear the flag, contrary
to the claim. -/
theorem watch_error_leaves_state_running :
    (lifecycle_run AppState.initial
        [LifecycleEvent.startE "C:/Logs" ⟨true, none, none⟩,
         LifecycleEvent.watchErrorE "channel closed"]).watcher_status =
      WatcherStatus.Running
    ∧ (lifecycle_run AppState.initial
        [LifecycleEvent.startE "C:/Logs" ⟨true, none, none⟩,
         LifecycleEvent.watchErrorE "channel closed"]).is_watching = true
    ∧ ∀ m, (lifecycle_run AppState.initial
        [LifecycleEvent.startE "C:/Logs" ⟨true, none, none⟩,
         LifecycleEvent.watchErrorE "channel closed"]).watcher_status ≠
      WatcherStatus.Error m := by
  refine ⟨rfl, rfl, fun m h => ?_⟩
  simp [lifecycle_run, lifecycle_step, start_cmd, lw_start, watch_error_handler,
    AppState.initial] at h

/-- C2 amended: in every state reachable by lifecycle events from the
initial state, the status is `Running` iff the watching flag is true; a
mid-run watch error leaves the shared state completely unchanged (no
`Error` transition, no flag clearing) and only emits a `"log-error"`
notification. -/
theorem watcher_status_watching_invariant (evts : List LifecycleEvent) :
    status_watching_agree (lifecycle_run AppState.initial evts)
    ∧ ∀ s m, (watch_error_handler s m).1 = s
      ∧ (watch_error_handler s m).2 = [("log-error", "Watch error: " ++ m)] := by
  refine ⟨?_, fun s m => ⟨rfl, rfl⟩⟩
  have key : ∀ (l : List LifecycleEvent) (s : AppState),
      status_watching_agree s → status_watching_agree (lifecycle_run s l) := by
    intro l
    induction l with
    | nil => exact fun s h => h
    | cons e rest ih =>
      intro s h
      exact ih _ (lifecycle_step_agree s e h)
  exact key evts AppState.initial (by simp [AppState.initial, status_watching_agree])

/-- C7: starting while a session is active fails with the
`"Watcher is already running"` error, changes nothing, and leaves the
status `Running`. -/
theorem start_while_running_rejected (d : String) (env : WatchEnv)
    (s : AppState) (hw : s.is_watching = true)
    (hs : s.watcher_status = WatcherStatus.Running) :
    (start_cmd d env s).1 = Except.error "Watcher is already running"
    ∧ (start_cmd d env s).2 = s
    ∧ (start_cmd d env s).2.watcher_status = WatcherStatus.Running := by
  rw [start_cmd, if_pos hw]
  exact ⟨rfl, rfl, hs⟩

/-- C7 witness: two consecutive starts in an existing directory; the second
start meets a `Running`, watching state and is rejected. -/
theorem start_while_running_rejected_witness :
    (lifecycle_run AppState.initial
        [LifecycleEvent.startE "C:/Logs" ⟨true, none, none⟩]).is_watching = true
    ∧ (start_cmd "C:/Logs" ⟨true, none, none⟩
        (lifecycle_run AppState.initial
          [LifecycleEvent.startE "C:/Logs" ⟨true, none, none⟩])).1 =
      Except.error "Watcher is already running" := by
  refine ⟨rfl, ?_⟩
  exact (start_while_running_rejected "C:/Logs" ⟨true, none, none⟩ _ rfl rfl).1

/-- C8: stopping when not watching returns `Ok(false)`, not an error, and
changes nothing; when the watcher was never started the status stays
`Stopped`. -/
theorem stop_when_not_watching_noop (s : AppState)
    (hw : s.is_watching = false) :
    (stop_cmd s).1 = Except.ok false
    ∧ (stop_cmd s).2 = s
    ∧ (s.watcher_status = WatcherStatus.Stopped →
        (stop_cmd s).2.watcher_status = WatcherStatus.Stopped) := by
  rw [stop_cmd, hw]
  exact ⟨rfl, rfl, fun h => h⟩

/-- C8 witness: stopping from the never-started initial state. -/
theorem stop_when_not_watching_noop_witness :
    (stop_cmd AppState.initial).1 = Except.ok false
    ∧ (stop_cmd AppState.initial).2.watcher_status = WatcherStatus.Stopped :=
  ⟨(stop_when_not_watching_noop AppState.initial rfl).1,
   (stop_when_not_watching_noop AppState.initial rfl).2.2 rfl⟩

/-- C10: when no session is active and the pipeline start fails (missing
directory, watcher-creation failure, or watch-registration failure), the
command returns that error string and the shared state is untouched: the
flag stays false and the status is whatever it was, not `Running`. -/
theorem start_failure_leaves_state (d : String) (env : WatchEnv)
    (s : AppState) (e : String) (hw : s.is_watching = false)
    (he : lw_start d env = Except.error e) :
    (start_cmd d env s).1 = Except.error e
    ∧ (start_cmd d env s).2 = s
    ∧ (start_cmd d env s).2.is_watching = false
    ∧ (s.watcher_status ≠ WatcherStatus.Running →
        (start_cmd d env s).2.watcher_status ≠ WatcherStatus.Running) := by
  have hc : start_cmd d env s = (Except.error e, s) := by
    rw [start_cmd, hw]
    simp [he]
  rw [hc]
  exact ⟨rfl, rfl, hw, fun h => h⟩

/-- C10 witness: starting from the initial state against a directory that
does not exist. -/
theorem start_failure_leaves_state_witness :
    lw_start "Z:/missing" ⟨false, none, none⟩ =
      Except.error "Log directory not found: Z:/missing"
    ∧ (start_cmd "Z:/missing" ⟨false, none, none⟩ AppState.initial).1 =
      Except.error "Log directory not found: Z:/missing"
    ∧ (start_cmd "Z:/missing" ⟨false, none, none⟩ AppState.initial).2 =
      AppState.initial :=
  ⟨rfl,
   (start_failure_leaves_state "Z:/missing" ⟨false, none, none⟩
      AppState.initial _ rfl rfl).1,
   (start_failure_leaves_state "Z:/missing" ⟨false, none, none⟩
      AppState.initial _ rfl rfl).2.1⟩

/-! ## The spawned event-processing task — `log_watcher.rs` lines 44–97

The task loops over a `select` between the notification channel and a
100 ms tick.  Each loop iteration is one `task_step` on the pair of
`Option` slots `(last_content, last_path)`; the inputs (a filesystem
notification together with the outcome of reading the named file, a watch
error, or a tick) come from the environment.  Emitted `"log-event"`
payloads are collected in the returned list. -/

/-- `LogEvent` of `log_watcher.rs` lines 11–15, with the path kept as
components, the content as the characters of the emitted string, and the
RFC3339 wall-clock string abstracted to the `Nat` instant at which the
tick fired. -/
structure LogEvent where
  file_path : List String
  content : List Char
  timestamp : Nat
deriving DecidableEq

/-- One iteration's input: a successful change notification (its path list
and, when the filter will consult the file, the outcome of
`std::fs::read_to_string` — a valid-UTF-8 string on success), a
watch-channel error, or a 100 ms tick firing at instant `now`. -/
inductive TaskInput
  | fsOk (paths : List (List String)) (readRes : Option (List Char))
  | fsErr (msg : String)
  | tick (now : Nat)

/-- The two buffer slots of the task (`log_watcher.rs` lines 48–49), plus
whether the task has panicked: the byte slice of line 66 panics on a
non-boundary start, which aborts the spawned tokio task for good — a dead
task processes nothing and emits nothing. -/
structure TaskState where
  last_content : Option (List Char)
  last_path : Option (List String)
  panicked : Bool
deriving DecidableEq

/-- The empty buffer the task starts with. -/
def TaskState.initial : TaskState := ⟨none, none, false⟩

/-- One iteration of the task loop (`log_watcher.rs` lines 52–95).
A panicked (dead) task does nothing.  On a notification: take the first
path; if it passes the filter and the read succeeds, slice the trailing
window — overwriting both slots on success, killing the task when the
slice panics on a split character.  On a watch error: state unchanged (the
`"log-error"` emission is modelled separately in `watch_error_handler`).
On a tick: `take()` empties both slots, and a `LogEvent` is emitted iff
both were occupied. -/
def task_step (s : TaskState) : TaskInput → TaskState × List LogEvent
  | TaskInput.fsOk paths readRes =>
    if s.panicked then (s, [])
    else
      match paths.head? with
      | none => (s, [])
      | some path =>
        if event_filter_accept path then
          match readRes with
          | some content =>
            match trailing_window content with
            | some w => (⟨some w, some path, false⟩, [])
            | none => (⟨s.last_content, s.last_path, true⟩, [])
          | none => (s, [])
        else (s, [])
  | TaskInput.fsErr _ => (s, [])
  | TaskInput.tick now =>
    if s.panicked then (s, [])
    else
      match s.last_content, s.last_path with
      | some c, some p => (⟨none, none, false⟩, [⟨p, c, now⟩])
      | _, _ => (⟨none, none, false⟩, [])

/-- Run the task over a list of inputs, collecting all emitted events in
order. -/
def task_run (s : TaskState) : List TaskInput → TaskState × List LogEvent
  | [] => (s, [])
  | i :: rest =>
    let r := task_step s i
    let r' := task_run r.1 rest
    (r'.1, r.2 ++ r'.2)

/-- An input that buffers a read: its first path passes the filter and the
file read succeeded. -/
def isQualifyingRead : TaskInput → Bool
  | TaskInput.fsOk paths readRes =>
    match paths.head? with
    | some path => event_filter_accept path && readRes.isSome
    | none => false
  | _ => false

/-- Tick recognizer. -/
def isTick : TaskInput → Bool
  | TaskInput.tick _ => true
  | _ => false

/-! ### Theorems for the debouncer -/

lemma task_step_panicked (s : TaskState) (hp : s.panicked = true)
    (i : TaskInput) : task_step s i = (s, []) := by
  cases i with
  | fsOk paths readRes => rw [task_step, if_pos hp]
  | fsErr m => rfl
  | tick now => rw [task_step, if_pos hp]

lemma task_run_panicked (s : TaskState) (hp : s.panicked = true)
    (inputs : List TaskInput) : task_run s inputs = (s, []) := by
  induction inputs with
  | nil => rfl
  | cons i rest ih =>
    rw [task_run, task_step_panicked s hp i, ih]
    rfl

lemma task_step_non_qualifying (s : TaskState) (i : TaskInput)
    (hq : isQualifyingRead i = false) (ht : isTick i = false) :
    task_step s i = (s, []) := by
  by_cases hp : s.panicked
  · exact task_step_panicked s hp i
  · cases i with
    | fsOk paths readRes =>
      rw [task_step, if_neg hp]
      match h : paths.head? with
      | none => rfl
      | some path =>
        rw [isQualifyingRead, h] at hq
        by_cases hacc : event_filter_accept path
        · match readRes with
          | some c => simp [hacc] at hq
          | none => simp [hacc]
        · simp [hacc]
    | fsErr m => rfl
    | tick now => exact absurd ht (by simp [isTick])

lemma task_step_panic_read (s : TaskState) (hp : s.panicked = false)
    (path : List String) (content : List Char)
    (hacc : event_filter_accept path = true)
    (htw : trailing_window content = none) :
    task_step s (TaskInput.fsOk [path] (some content)) =
      (⟨s.last_content, s.last_path, true⟩, []) := by
  rw [task_step, if_neg (by simp [hp])]
  simp [hacc, htw]

lemma task_run_no_qualifying (inputs : List TaskInput)
    (h : ∀ i ∈ inputs, isQualifyingRead i = false) :
    task_run TaskState.initial inputs = (TaskState.initial, []) := by
  induction inputs with
  | nil => rfl
  | cons i rest ih =>
    have hi := h i (List.mem_cons_self i rest)
    have hrest := ih fun j hj => h j (List.mem_cons_of_mem i hj)
    have hstep : task_step TaskState.initial i = (TaskState.initial, []) := by
      by_cases ht : isTick i = true
      · cases i with
        | tick now => rfl
        | fsOk _ _ => simp [isTick] at ht
        | fsErr _ => simp [isTick] at ht
      · exact task_step_non_qualifying _ i hi (by simpa using ht)
    rw [task_run, hstep, hrest]
    rfl

/-- C9: the debouncer emits nothing for empty intervals.  First conjunct:
from any task state, a tick followed by inputs none of which is a
qualifying read (and none a tick), followed by the next tick, produces no
event after the first tick — the interval between two consecutive ticks
with zero buffered reads yields zero `LogEvent`s.  Second conjunct: if no
qualifying read ever arrives, the task never emits any event at all,
whatever mixture of ticks, watch errors and non-qualifying notifications
it sees. -/
theorem debouncer_empty_interval_no_event (s : TaskState)
    (mids : List TaskInput) (now1 now2 : Nat)
    (hm : ∀ i ∈ mids, isQualifyingRead i = false ∧ isTick i = false) :
    (task_run (task_step s (TaskInput.tick now1)).1
        (mids ++ [TaskInput.tick now2])).2 = []
    ∧ ∀ inputs : List TaskInput,
        (∀ i ∈ inputs, isQualifyingRead i = false) →
        (task_run TaskState.initial inputs).2 = [] := by
  constructor
  · have hnq : ∀ i ∈ mids ++ [TaskInput.tick now2], isQualifyingRead i = false := by
      intro i hi
      rcases List.mem_append.mp hi with h | h
      · exact (hm i h).1
      · rcases List.mem_singleton.mp h with rfl
        rfl
    by_cases hp : s.panicked
    · rw [task_step_panicked s hp, task_run_panicked s hp]
    · have hcleared : (task_step s (TaskInput.tick now1)).1 = TaskState.initial := by
        rw [task_step, if_neg hp]
        match s.last_content, s.last_path with
        | some c, some p => rfl
        | some _, none => rfl
        | none, some _ => rfl
        | none, none => rfl
      rw [hcleared, task_run_no_qualifying _ hnq]
  · intro inputs h
    rw [task_run_no_qualifying inputs h]

/-- C9 witness: a watch error between two ticks, from a live task state
still holding a buffered item before the first tick. -/
theorem debouncer_empty_interval_no_event_witness :
    (task_run (task_step ⟨some ['x'], some ["notifications.log"], false⟩
        (TaskInput.tick 0)).1
      ([TaskInput.fsErr "overflow"] ++ [TaskInput.tick 1])).2 = [] :=
  (debouncer_empty_interval_no_event
    ⟨some ['x'], some ["notifications.log"], false⟩
    [TaskInput.fsErr "overflow"] 0 1
    (by intro i hi; rcases List.mem_singleton.mp hi with rfl; exact ⟨rfl, rfl⟩)).1

lemma task_run_reads_then_tick (now : Nat)
    (reads : List (List String × List Char)) (hne : reads ≠ [])
    (hq : ∀ r ∈ reads, event_filter_accept r.1 = true)
    (hw : ∀ r ∈ reads, ∃ w, trailing_window r.2 = some w) :
    ∀ s : TaskState, s.panicked = false →
      ∃ w, trailing_window (reads.getLast hne).2 = some w ∧
        task_run s
            (reads.map (fun r => TaskInput.fsOk [r.1] (some r.2)) ++
              [TaskInput.tick now]) =
          (TaskState.initial, [⟨(reads.getLast hne).1, w, now⟩]) := by
  induction reads with
  | nil => exact absurd rfl hne
  | cons r rest ih =>
    intro s hp
    have hr := hq r (List.mem_cons_self r rest)
    obtain ⟨w0, hw0⟩ := hw r (List.mem_cons_self r rest)
    have hstep : task_step s (TaskInput.fsOk [r.1] (some r.2)) =
        (⟨some w0, some r.1, false⟩, []) := by
      rw [task_step, if_neg (by simp [hp])]
      simp [hr, hw0]
    match rest with
    | [] =>
      refine ⟨w0, by simpa [List.getLast_singleton] using hw0, ?_⟩
      simp only [List.map_cons, List.map_nil, List.nil_append, List.cons_append,
        List.getLast_singleton]
      rw [task_run, hstep]
      rfl
    | r' :: rest' =>
      have hne' : r' :: rest' ≠ [] := by simp
      have hq' : ∀ x ∈ r' :: rest', event_filter_accept x.1 = true :=
        fun x hx => hq x (List.mem_cons_of_mem r hx)
      have hw' : ∀ x ∈ r' :: rest', ∃ w, trailing_window x.2 = some w :=
        fun x hx => hw x (List.mem_cons_of_mem r hx)
      obtain ⟨w, hwl, hr2⟩ := ih hne' hq' hw' ⟨some w0, some r.1, false⟩ rfl
      refine ⟨w, by simpa [List.getLast] using hwl, ?_⟩
      simp only [List.map_cons, List.cons_append]
      rw [task_run, hstep]
      simp only [List.map_cons, List.cons_append] at hr2
      rw [hr2]
      simp [List.getLast]

/-- C1 amended: for any nonempty burst of qualifying reads delivered within
one tick interval (no tick separates them), each of whose contents slices
cleanly — its window start falls on a UTF-8 character boundary, so the
byte slice of line 66 does not panic — the next tick emits exactly one
`LogEvent`, whose content is the trailing window of the last read's file
content and whose path is the last read's path; all earlier reads of the
burst are dropped and the buffer is left empty.  Without the boundary
proviso the property fails: a splitting read panics the task and the next
tick emits nothing. -/
theorem debouncer_coalesces_burst (now : Nat)
    (reads : List (List String × List Char)) (hne : reads ≠ [])
    (hq : ∀ r ∈ reads, event_filter_accept r.1 = true)
    (hw : ∀ r ∈ reads, ∃ w, trailing_window r.2 = some w) :
    ∃ w, trailing_window (reads.getLast hne).2 = some w
      ∧ (task_run TaskState.initial
          (reads.map (fun r => TaskInput.fsOk [r.1] (some r.2)) ++
            [TaskInput.tick now])).2 = [⟨(reads.getLast hne).1, w, now⟩]
      ∧ (task_run TaskState.initial
          (reads.map (fun r => TaskInput.fsOk [r.1] (some r.2)) ++
            [TaskInput.tick now])).1 = TaskState.initial := by
  obtain ⟨w, hwl, hr⟩ :=
    task_run_reads_then_tick now reads hne hq hw TaskState.initial rfl
  exact ⟨w, hwl, by rw [hr], by rw [hr]⟩

/-- C1 counterexample to the original statement: ONE qualifying read —
the filter accepts `notifications.log` and `read_to_string` succeeds on
the valid UTF-8 content `é` followed by 10239 ASCII characters — arrives
within the interval, yet the next tick emits ZERO events: the byte slice
panics on the split character and kills the task, so no event carries the
read's content. -/
theorem debouncer_burst_panic_counterexample :
    event_filter_accept ["notifications.log"] = true
    ∧ (task_run TaskState.initial
        [TaskInput.fsOk [["notifications.log"]]
          (some ('é' :: List.replicate 10239 'a')),
         TaskInput.tick 9]).2 = [] := by
  refine ⟨by decide, ?_⟩
  have hstep : task_step TaskState.initial
      (TaskInput.fsOk [["notifications.log"]]
        (some ('é' :: List.replicate 10239 'a'))) =
      (⟨none, none, true⟩, []) :=
    task_step_panic_read TaskState.initial rfl ["notifications.log"] _
      (by decide) trailing_window_split_char
  rw [task_run, hstep, task_run,
    task_step_panicked ⟨none, none, true⟩ rfl]
  rfl

/-- C1 witness: a burst of two qualifying, cleanly slicing reads of
`notifications.log`; the single event of the next tick carries the second
read's content. -/
theorem debouncer_coalesces_burst_witness :
    (task_run TaskState.initial
        ([(⟨["notifications.log"], ['h', 'i']⟩ : List String × List Char),
          ⟨["notifications.log"], ['b', 'y', 'e']⟩].map
            (fun r => TaskInput.fsOk [r.1] (some r.2)) ++
          [TaskInput.tick 9])).2 =
      [⟨["notifications.log"], ['b', 'y', 'e'], 9⟩] := by
  have hq : ∀ r ∈ [(⟨["notifications.log"], ['h', 'i']⟩ : List String × List Char),
      ⟨["notifications.log"], ['b', 'y', 'e']⟩], event_filter_accept r.1 = true := by
    intro r hr
    rcases List.mem_cons.mp hr with rfl | hr
    · decide
    · rcases List.mem_singleton.mp hr with rfl
      decide
  have hw : ∀ r ∈ [(⟨["notifications.log"], ['h', 'i']⟩ : List String × List Char),
      ⟨["notifications.log"], ['b', 'y', 'e']⟩], ∃ w, trailing_window r.2 = some w := by
    intro r hr
    rcases List.mem_cons.mp hr with rfl | hr
    · exact ⟨['h', 'i'], by decide⟩
    · rcases List.mem_singleton.mp hr with rfl
      exact ⟨['b', 'y', 'e'], by decide⟩
  obtain ⟨w, hwl, h2, h3⟩ := debouncer_coalesces_burst 9
    [⟨["notifications.log"], ['h', 'i']⟩, ⟨["notifications.log"], ['b', 'y', 'e']⟩]
    (by simp) hq hw
  simp only [List.getLast] at hwl h2
  have hv : trailing_window ['b', 'y', 'e'] = some ['b', 'y', 'e'] := by decide
  rw [hv] at hwl
  obtain rfl := (Option.some.inj hwl).symm
  exact h2


/-! ## Combined system: lifecycle commands plus the spawned task — C3

`lib.rs`'s `stop_log_watcher` calls `log_watcher::stop_log_watcher`, which
returns `Ok(true)` without cancelling anything (`log_watcher.rs` lines
102–107): the spawned task of lines 44–97 keeps looping and still owns the
OS watcher (`let _watcher = watcher;`, line 46).  The combined model keeps
the task state alongside the `AppState`; a stop command updates only the
`AppState`. -/

/-- Combined state: the shared `AppState`, whether a task has been spawned
by a successful start, and that task's buffer slots. -/
structure SysState where
  app : AppState
  task_spawned : Bool
  task : TaskState
deriving DecidableEq

/-- Initial combined state: fresh `AppState`, no task. -/
def SysState.initial : SysState :=
  ⟨AppState.initial, false, TaskState.initial⟩

/-- A combined-system event: a start command (with its OS environment), a
stop command, or an input arriving at the spawned task. -/
inductive SysEvent
  | cmdStart (dir : String) (env : WatchEnv)
  | cmdStop
  | taskIn (i : TaskInput)

/-- One combined step.  A successful start spawns the task; a stop command
runs `stop_cmd` on the `AppState` and — exactly as in the source — leaves
the spawned task and its buffer untouched; task inputs are processed only
once a task exists. -/
def sys_step (s : SysState) : SysEvent → SysState × List LogEvent
  | SysEvent.cmdStart d env =>
    match (start_cmd d env s.app).1 with
    | Except.ok _ => (⟨(start_cmd d env s.app).2, true, s.task⟩, [])
    | Except.error _ => (⟨(start_cmd d env s.app).2, s.task_spawned, s.task⟩, [])
  | SysEvent.cmdStop => (⟨(stop_cmd s.app).2, s.task_spawned, s.task⟩, [])
  | SysEvent.taskIn i =>
    if s.task_spawned then
      (⟨s.app, true, (task_step s.task i).1⟩, (task_step s.task i).2)
    else (s, [])

/-- Run the combined system over a list of events, collecting all emitted
`LogEvent`s. -/
def sys_run (s : SysState) : List SysEvent → SysState × List LogEvent
  | [] => (s, [])
  | e :: rest =>
    let r := sys_step s e
    let r' := sys_run r.1 rest
    (r'.1, r.2 ++ r'.2)

/-- C3 is false of the code: start a watcher, let one qualifying read
arrive, then stop.  `stop_cmd` returns `Ok(true)` — a successful stop of a
running watcher — yet the very next tick of the still-live task emits a
`LogEvent`.  The stream does produce further items after a successful
stop. -/
theorem stop_does_not_halt_pipeline :
    (stop_cmd (sys_run SysState.initial
        [SysEvent.cmdStart "C:/Logs" ⟨true, none, none⟩,
         SysEvent.taskIn (TaskInput.fsOk [["notifications.log"]]
           (some ['h', 'i']))]).1.app).1 = Except.ok true
    ∧ (sys_run SysState.initial
        [SysEvent.cmdStart "C:/Logs" ⟨true, none, none⟩,
         SysEvent.taskIn (TaskInput.fsOk [["notifications.log"]]
           (some ['h', 'i'])),
         SysEvent.cmdStop,
         SysEvent.taskIn (TaskInput.tick 7)]).2 =
      [⟨["notifications.log"], ['h', 'i'], 7⟩]
    ∧ (sys_run SysState.initial
        [SysEvent.cmdStart "C:/Logs" ⟨true, none, none⟩,
         SysEvent.taskIn (TaskInput.fsOk [["notifications.log"]]
           (some ['h', 'i'])),
         SysEvent.cmdStop]).1.app.is_watching = false := by
  refine ⟨rfl, by decide, by decide⟩

end TarkovQuestTracker
